import Mathlib

/-!
Verification of the yelp_rag repository: a shallow embedding of the
chunking, index-building, retrieval and pipeline code, with theorems
settling the behavioural claims about it.

Sources embedded here:
- src/src/config.py       (numeric constants, topic list)
- src/src/cleaning.py     (CleanChunkYelpReviews: parameter merging, divide_reviews_into_chunks)
- src/src/embeddings.py   (CreateReviewEmbeddings: per-entity shard construction, build report)
- src/src/retrieval.py    (RetrieveRelevantText: index/metadata pairing, sort, per-review cap,
                           empty-result diagnostics)
- src/run_pipeline.py     (YelpRAGPipelineRunner.run_pipeline stage sequencing)
-/

/-! ## Configuration constants, from src/src/config.py -/

def CHUNK_CHARS : Nat := 1000

def OVERLAP_CHARS : Nat := 200

def MIN_CHUNK_CHARS : Nat := 230

def MAX_CHUNKS_PER_REVIEW : Nat := 1

def MAX_CHUNKS_PER_TOPIC : Nat := 12

/-- Topic names, the keys of config.TOPICS, in dict insertion order. -/
def TOPICS : List String := ["food", "service", "ambiance"]

/-! ## Chunker, from src/src/cleaning.py -/

/-- The three numeric chunking parameters stored on a CleanChunkYelpReviews
instance (character counts, hence naturals). -/
structure ChunkParams where
  chunk_chars : Nat
  overlap_chars : Nat
  min_chunk_chars : Nat
deriving DecidableEq, Repr

/-- Embedding of the numeric-parameter part of CleanChunkYelpReviews.__init__
(cleaning.py lines 42-77): for each parameter the stored value is the caller
override when it is not None, else the config.py default.  The constructor
performs no validation of any kind, so it is a total function into
ChunkParams. -/
def CleanChunkYelpReviews_init (chunk_chars overlap_chars min_chunk_chars : Option Nat) :
    ChunkParams :=
  { chunk_chars := chunk_chars.getD CHUNK_CHARS
    overlap_chars := overlap_chars.getD OVERLAP_CHARS
    min_chunk_chars := min_chunk_chars.getD MIN_CHUNK_CHARS }

/-- Embedding of CleanChunkYelpReviews.divide_reviews_into_chunks
(cleaning.py lines 154-181).  The Python body is a while loop over char_idx
whose final statement is the return of the DataFrame built from chunk_dict,
and that return sits INSIDE the loop body, so the loop body runs at most
once.  On the single iteration char_idx = 0 and chunk_idx = 0, hence only
the first two branches are reachable: whole text when it fits in
chunk_chars, otherwise the slice text[0:chunk_chars].  When the text is
empty the loop never runs and the Python function falls off the end,
returning None; that is the none case here.  The result pairs are
(chunk_index, chunk text). -/
def divide_reviews_into_chunks (p : ChunkParams) (text : List Char) :
    Option (List (Nat × List Char)) :=
  if 0 < text.length then
    if text.length ≤ p.chunk_chars then
      some [(0, text)]
    else
      some [(0, text.take p.chunk_chars)]
  else
    none

/-- Concatenation of the non-overlap regions of a chunk sequence: the first
chunk in full, every later chunk with its first overlap characters dropped.
This is the reconstruction map used by the coverage property of the spec. -/
def non_overlap_concat (overlap : Nat) : List (Nat × List Char) → List Char
  | [] => []
  | c :: rest => c.2 ++ (rest.map (fun q => q.2.drop overlap)).flatten

/-- C1: the chunker never traverses past the first window.  With
chunk_chars = 2, overlap_chars = 1, min_chunk_chars = 0 and the four
character text "abcd" (which needs three chunks), the code emits only the
single chunk (0, "ab"), and concatenating non-overlap regions of what it
emits yields "ab", not the original text. -/
theorem divide_reviews_truncates_after_first_chunk :
    divide_reviews_into_chunks ⟨2, 1, 0⟩ ['a', 'b', 'c', 'd'] = some [(0, ['a', 'b'])] ∧
    non_overlap_concat 1 [(0, ['a', 'b'])] ≠ ['a', 'b', 'c', 'd'] := by
  constructor
  · rfl
  · decide

/-- C9: for every non-empty text of length at most chunk_chars, the chunker
emits exactly one chunk, with chunk index 0, whose content is the whole
text. -/
theorem divide_reviews_single_chunk (p : ChunkParams) (text : List Char)
    (hne : text ≠ []) (hle : text.length ≤ p.chunk_chars) :
    divide_reviews_into_chunks p text = some [(0, text)] := by
  have hpos : 0 < text.length := List.length_pos.mpr hne
  unfold divide_reviews_into_chunks
  rw [if_pos hpos, if_pos hle]

/-- Witness for C9 at the concrete text "ab" with chunk_chars = 5. -/
theorem divide_reviews_single_chunk_witness :
    divide_reviews_into_chunks ⟨5, 1, 0⟩ ['a', 'b'] = some [(0, ['a', 'b'])] :=
  divide_reviews_single_chunk ⟨5, 1, 0⟩ ['a', 'b'] (by decide) (by decide)

/-- C4 counterexample: no fail-fast validation exists.  With the degenerate
setting chunk_chars = 0 (and overlap_chars = 0 ≥ chunk_chars) the
constructor stores the values unchanged and the chunker still returns an
ordinary result, a single empty chunk, instead of raising a configuration
error. -/
theorem chunker_accepts_degenerate_config :
    CleanChunkYelpReviews_init (some 0) (some 0) (some 0) = ⟨0, 0, 0⟩ ∧
    divide_reviews_into_chunks ⟨0, 0, 0⟩ ['a', 'b'] = some [(0, [])] := by
  constructor
  · rfl
  · rfl

/-- C4 amended: neither the constructor nor the chunker validates the
parameters.  The constructor stores any supplied values verbatim, and on
every non-empty text the chunker returns an ordinary some-result for every
parameter setting, degenerate ones included. -/
theorem chunker_never_raises_config_error (a b c : Nat) (text : List Char)
    (hne : text ≠ []) :
    CleanChunkYelpReviews_init (some a) (some b) (some c) = ⟨a, b, c⟩ ∧
    ∃ r, divide_reviews_into_chunks ⟨a, b, c⟩ text = some r := by
  refine ⟨rfl, ?_⟩
  have hpos : 0 < text.length := List.length_pos.mpr hne
  unfold divide_reviews_into_chunks
  rw [if_pos hpos]
  by_cases hle : text.length ≤ a
  · exact ⟨[(0, text)], by rw [if_pos hle]⟩
  · exact ⟨[(0, text.take a)], by rw [if_neg hle]⟩

/-- Witness for the amended C4 at chunk_chars = 0, overlap_chars = 5. -/
theorem chunker_never_raises_config_error_witness :
    CleanChunkYelpReviews_init (some 0) (some 5) (some 0) = ⟨0, 5, 0⟩ ∧
    ∃ r, divide_reviews_into_chunks ⟨0, 5, 0⟩ ['a'] = some r :=
  chunker_never_raises_config_error 0 5 0 ['a'] (by decide)

/-! ## Retriever: index/metadata pairing and diagnostics, from src/src/retrieval.py

The filesystem is abstracted as the sorted list of business ids whose
.faiss file is present, together with a predicate saying whether the
paired metadata parquet exists.  Which searches come back empty is
abstracted as a predicate on (business id, topic), since the search
itself is an external FAISS call. -/

/-- Embedding of RetrieveRelevantText.get_index_files_with_metadata
(retrieval.py lines 26-47): walk the .faiss business ids in order; the
first one whose metadata parquet is missing raises KeyError (the error
value carries the offending business id), otherwise collect the ids in
order. -/
def get_index_files_with_metadata : List String → (String → Bool) → Except String (List String)
  | [], _ => Except.ok []
  | bid :: rest, metaExists =>
    if metaExists bid then
      match get_index_files_with_metadata rest metaExists with
      | Except.ok pairs => Except.ok (bid :: pairs)
      | Except.error e => Except.error e
    else
      Except.error bid

/-- Python dict update with a single key: replace in place when the key is
present, else append.  Models empties.update({business_id: topic}). -/
def dict_update (d : List (String × String)) (k v : String) : List (String × String) :=
  if d.any (fun p => p.1 == k) then
    d.map (fun p => if p.1 == k then (k, v) else p)
  else
    d ++ [(k, v)]

/-- The empties dict built by the retrieval loop (retrieval.py lines
117-128): for each business id in order, for each topic in order, when the
(business, topic) result dataframe is empty run
empties.update({business_id: topic}).  The dict is keyed by business id
alone. -/
def collect_empties (pairs : List String) (isEmptyResult : String → String → Bool) :
    List (String × String) :=
  pairs.foldl
    (fun acc bid =>
      TOPICS.foldl (fun acc2 t => if isEmptyResult bid t then dict_update acc2 bid t else acc2) acc)
    []

/-- Python tuple unpacking k, v = s of a string s: succeeds exactly when
the string has two characters, else raises ValueError. -/
def unpack_two (s : String) : Except String (String × String) :=
  match s.data with
  | [a, b] => Except.ok (String.mk [a], String.mk [b])
  | _ => Except.error "ValueError"

/-- Embedding of the reporting block (retrieval.py lines 135-140): when the
empties dict is non-empty, the code runs for k, v in empties, which
iterates over the dict KEYS and tuple-unpacks each key string, so each
iteration raises ValueError unless the key happens to be exactly two
characters long. -/
def report_empties (empties : List (String × String)) : Except String Unit :=
  if empties.isEmpty then
    Except.ok ()
  else
    empties.foldlM (fun _ p => (unpack_two p.1).map (fun _ => ())) ()

/-- Embedding of RetrieveRelevantText.retrieve_topic_relevant_text
(retrieval.py lines 108-143) at the level of control flow: pair the index
files with metadata (a raise there aborts the whole run before any entity
is searched), then the per-entity per-topic loop produces one tagged
result set per (business id, topic) pair while accumulating the empties
dict, and finally the reporting block runs (raising ValueError as
described in report_empties).  The ok value lists the (business id, topic)
result sets the completed run emitted, in order. -/
def retrieve_topic_relevant_text (faissIds : List String) (metaExists : String → Bool)
    (isEmptyResult : String → String → Bool) : Except String (List (String × String)) :=
  match get_index_files_with_metadata faissIds metaExists with
  | Except.error e => Except.error e
  | Except.ok pairs =>
    let result_rows := (pairs.map (fun bid => TOPICS.map (fun t => (bid, t)))).flatten
    match report_empties (collect_empties pairs isEmptyResult) with
    | Except.error e => Except.error e
    | Except.ok _ => Except.ok result_rows

/-- C2 counterexample: failure is not isolated.  With index files for "A"
and "B" and metadata present only for "B", the whole run raises KeyError
for "A", and in particular no successful result containing an entry for
"B" is ever produced: retrieval for "B" does not proceed. -/
theorem missing_metadata_not_isolated :
    retrieve_topic_relevant_text ["A", "B"] (fun b => b == "B") (fun _ _ => false) =
      Except.error "A" ∧
    ¬ ∃ rows, retrieve_topic_relevant_text ["A", "B"] (fun b => b == "B") (fun _ _ => false) =
        Except.ok rows ∧ ("B", "food") ∈ rows := by
  refine ⟨rfl, ?_⟩
  rintro ⟨rows, h, -⟩
  rw [show retrieve_topic_relevant_text ["A", "B"] (fun b => b == "B") (fun _ _ => false) =
      Except.error "A" from rfl] at h
  exact Except.noConfusion h

/-- C2 amended: an index file present without its paired metadata file
aborts the entire retrieval run.  Whenever any listed business id lacks
its metadata file, retrieve_topic_relevant_text returns a KeyError and no
entity obtains results in that run. -/
theorem missing_metadata_aborts_whole_run (faissIds : List String)
    (metaExists : String → Bool) (isEmptyResult : String → String → Bool)
    (bid : String) (hmem : bid ∈ faissIds) (hmiss : metaExists bid = false) :
    ∃ e, retrieve_topic_relevant_text faissIds metaExists isEmptyResult = Except.error e := by
  have hpair : ∃ e, get_index_files_with_metadata faissIds metaExists = Except.error e := by
    induction faissIds with
    | nil => cases hmem
    | cons hd tl ih =>
      by_cases hhd : metaExists hd = true
      · rcases List.mem_cons.mp hmem with heq | htl
        · subst heq
          rw [hhd] at hmiss
          cases hmiss
        · rcases ih htl with ⟨e, he⟩
          refine ⟨e, ?_⟩
          unfold get_index_files_with_metadata
          rw [if_pos hhd, he]
      · refine ⟨hd, ?_⟩
        unfold get_index_files_with_metadata
        rw [if_neg hhd]
  rcases hpair with ⟨e, he⟩
  refine ⟨e, ?_⟩
  unfold retrieve_topic_relevant_text
  rw [he]

/-- Witness for the amended C2: entity "A" has an index file but no
metadata file, and the run errors. -/
theorem missing_metadata_aborts_whole_run_witness :
    ∃ e, retrieve_topic_relevant_text ["A", "B"] (fun b => b == "B") (fun _ _ => false) =
      Except.error e :=
  missing_metadata_aborts_whole_run ["A", "B"] (fun b => b == "B") (fun _ _ => false) "A"
    (by decide) (by decide)

/-- C5: the empties diagnostics are overwritten per entity and crash the
run.  With one entity "abc" (metadata present) whose "food" and "service"
searches both come back empty, the dict keyed by business id retains only
the later topic, so the (abc, food) pair is silently dropped; and because
the reporting loop iterates the dict keys and tuple-unpacks the
three-character key "abc", the run aborts with ValueError instead of
completing. -/
theorem empties_overwritten_and_report_aborts :
    collect_empties ["abc"] (fun _ t => t != "ambiance") = [("abc", "service")] ∧
    retrieve_topic_relevant_text ["abc"] (fun _ => true) (fun _ t => t != "ambiance") =
      Except.error "ValueError" := by
  exact ⟨rfl, rfl⟩

/-! ## Retriever: ranking and per-review cap, from src/src/retrieval.py

convert_similarity_arrays_to_df joins the raw FAISS score/position arrays
to the metadata rows and then runs
  df = df.sort_values(by = "scores", ascending = False)
  df = df.groupby("review_id", as_index = False).head(config.MAX_CHUNKS_PER_REVIEW)
A joined row is modelled by RRow; pos is the original retrieval position
(the row index in the arrays returned by index.search, ascending in the
input).  Scores are modelled as integers: only their order matters here. -/

/-- One joined result row of convert_similarity_arrays_to_df. -/
structure RRow where
  score : Int
  pos : Nat
  review_id : String
  chunk_id : String
deriving DecidableEq, Repr

/-- The rows are ordered by weakly decreasing score. -/
def sorted_desc (l : List RRow) : Prop :=
  l.Pairwise (fun a b => b.score ≤ a.score)

instance (l : List RRow) : Decidable (sorted_desc l) := by
  unfold sorted_desc
  infer_instance

/-- Embedding of df.sort_values(by = "scores", ascending = False) with the
pandas default kind = "quicksort", which is NOT a stable sort: the only
guarantee is that the output is a permutation of the input ordered by
weakly decreasing score.  Any such permutation is a possible output, so
the operation is a relation, not a function. -/
def sort_values_desc (rows out : List RRow) : Prop :=
  out.Perm rows ∧ sorted_desc out

instance (rows out : List RRow) : Decidable (sort_values_desc rows out) := by
  unfold sort_values_desc
  exact instDecidableAnd

/-- Bump the per-review counter for one review id. -/
def bump (seen : String → Nat) (k : String) : String → Nat :=
  fun x => if x = k then seen k + 1 else seen x

/-- Worker for groupby("review_id").head(n): walk the rows in order and
keep a row exactly when fewer than n earlier rows shared its review_id. -/
def groupby_head_aux (n : Nat) : List RRow → (String → Nat) → List RRow
  | [], _ => []
  | r :: rest, seen =>
    if seen r.review_id < n then
      r :: groupby_head_aux n rest (bump seen r.review_id)
    else
      groupby_head_aux n rest seen

/-- Embedding of df.groupby("review_id", as_index = False).head(n): the
first n rows of each review_id group, in the order of the incoming
(already sorted) dataframe. -/
def groupby_head (n : Nat) (l : List RRow) : List RRow :=
  groupby_head_aux n l (fun _ => 0)

/-- Embedding of the sort-and-cap tail of convert_similarity_arrays_to_df
(retrieval.py lines 103-105): the output arises from some quicksort
outcome of the joined rows, capped at MAX_CHUNKS_PER_REVIEW rows per
review_id. -/
def convert_similarity_arrays_to_df (rows out : List RRow) : Prop :=
  ∃ s, sort_values_desc rows s ∧ out = groupby_head MAX_CHUNKS_PER_REVIEW s

/-- C6 counterexample: the code's sort does not guarantee stable ties.
For the two tied rows below (given in original ascending retrieval order,
pos 0 then pos 1), the reversed order is a legitimate outcome of
sort_values_desc (a descending-sorted permutation), yet its equal-score
rows do not keep the original ascending order. -/
theorem sort_ties_not_stable :
    sort_values_desc [⟨1, 0, "ra", "ca"⟩, ⟨1, 1, "rb", "cb"⟩]
      [⟨1, 1, "rb", "cb"⟩, ⟨1, 0, "ra", "ca"⟩] ∧
    ¬ ([⟨1, 1, "rb", "cb"⟩, ⟨1, 0, "ra", "ca"⟩] : List RRow).Pairwise
        (fun a b => a.score = b.score → a.pos < b.pos) := by
  constructor
  · decide
  · decide

/-- Two descending-sorted permutations of each other with pairwise distinct
scores are equal. -/
theorem eq_of_sorted_desc_perm_nodup :
    ∀ l1 l2 : List RRow, l1.Perm l2 → sorted_desc l1 → sorted_desc l2 →
      (l1.map RRow.score).Nodup → l1 = l2 := by
  intro l1
  induction l1 with
  | nil =>
    intro l2 hp _ _ _
    exact (List.Perm.eq_nil hp.symm).symm
  | cons a t1 ih =>
    intro l2 hp hs1 hs2 hnd
    have ha2 : a ∈ l2 := hp.mem_iff.mp (List.mem_cons_self a t1)
    cases l2 with
    | nil => cases ha2
    | cons b t2 =>
      have hb1 : b ∈ a :: t1 := hp.mem_iff.mpr (List.mem_cons_self b t2)
      have hs1' := List.pairwise_cons.mp hs1
      have hs2' := List.pairwise_cons.mp hs2
      have hndc : a.score ∉ t1.map RRow.score ∧ (t1.map RRow.score).Nodup := by
        rw [List.map_cons, List.nodup_cons] at hnd
        exact hnd
      have hba : b = a := by
        rcases List.mem_cons.mp hb1 with h | h
        · exact h
        · exfalso
          have hab : a.score = b.score := by
            rcases List.mem_cons.mp ha2 with h2 | h2
            · rw [h2]
            · exact le_antisymm (hs2'.1 a h2) (hs1'.1 b h)
          exact hndc.1 (hab ▸ List.mem_map_of_mem RRow.score h)
      subst hba
      have htp : t1.Perm t2 := hp.cons_inv
      have := ih t2 htp hs1'.2 hs2'.2 hndc.2
      rw [this]

/-- C6 amended: the sort relation is deterministic exactly when scores are
distinct.  When all scores in the joined rows differ, any two outcomes of
sort_values_desc coincide, so the ordered (score, chunk_id) sequence is
reproducible; with tied scores the order is unconstrained (see the
counterexample). -/
theorem sort_deterministic_on_distinct_scores (rows o1 o2 : List RRow)
    (hnd : (rows.map RRow.score).Nodup)
    (h1 : sort_values_desc rows o1) (h2 : sort_values_desc rows o2) : o1 = o2 := by
  have hp : o1.Perm o2 := h1.1.trans h2.1.symm
  have hnd1 : (o1.map RRow.score).Nodup := ((h1.1.map RRow.score).nodup_iff).mpr hnd
  exact eq_of_sorted_desc_perm_nodup o1 o2 hp h1.2 h2.2 hnd1

/-- Witness for the amended C6 on two rows with distinct scores. -/
theorem sort_deterministic_on_distinct_scores_witness :
    ([⟨2, 0, "ra", "ca"⟩, ⟨1, 1, "rb", "cb"⟩] : List RRow) =
      [⟨2, 0, "ra", "ca"⟩, ⟨1, 1, "rb", "cb"⟩] :=
  sort_deterministic_on_distinct_scores [⟨1, 1, "rb", "cb"⟩, ⟨2, 0, "ra", "ca"⟩]
    [⟨2, 0, "ra", "ca"⟩, ⟨1, 1, "rb", "cb"⟩] [⟨2, 0, "ra", "ca"⟩, ⟨1, 1, "rb", "cb"⟩]
    (by decide) (by decide) (by decide)

theorem bump_le (seen : String → Nat) (k x : String) : seen x ≤ bump seen k x := by
  unfold bump
  by_cases h : x = k
  · subst h
    simp
  · simp [h]

theorem mem_of_mem_groupby_head_aux (n : Nat) :
    ∀ (l : List RRow) (seen : String → Nat) (r : RRow),
      r ∈ groupby_head_aux n l seen → r ∈ l := by
  intro l
  induction l with
  | nil =>
    intro seen r hr
    simp [groupby_head_aux] at hr
  | cons a t ih =>
    intro seen r hr
    unfold groupby_head_aux at hr
    by_cases hk : seen a.review_id < n
    · rw [if_pos hk] at hr
      rcases List.mem_cons.mp hr with h | h
      · exact h ▸ List.mem_cons_self a t
      · exact List.mem_cons_of_mem a (ih _ r h)
    · rw [if_neg hk] at hr
      exact List.mem_cons_of_mem a (ih _ r hr)

/-- Once the quota for a review id is exhausted in the running counter, no
later row of that review id is kept. -/
theorem groupby_head_aux_quota (n : Nat) (rid : String) :
    ∀ (l : List RRow) (seen : String → Nat), n ≤ seen rid →
      ∀ r ∈ groupby_head_aux n l seen, r.review_id ≠ rid := by
  intro l
  induction l with
  | nil =>
    intro seen _ r hr
    simp [groupby_head_aux] at hr
  | cons a t ih =>
    intro seen hle r hr
    unfold groupby_head_aux at hr
    by_cases hk : seen a.review_id < n
    · rw [if_pos hk] at hr
      rcases List.mem_cons.mp hr with h | h
      · subst h
        intro heq
        rw [heq] at hk
        omega
      · exact ih _ (le_trans hle (bump_le seen a.review_id rid)) r h
    · rw [if_neg hk] at hr
      exact ih _ hle r hr

/-- The number of kept rows of a given review id never exceeds the
remaining quota. -/
theorem groupby_head_aux_countP (n : Nat) (rid : String) :
    ∀ (l : List RRow) (seen : String → Nat),
      (groupby_head_aux n l seen).countP (fun r => r.review_id == rid) ≤ n - seen rid := by
  intro l
  induction l with
  | nil =>
    intro seen
    simp [groupby_head_aux]
  | cons a t ih =>
    intro seen
    unfold groupby_head_aux
    by_cases hk : seen a.review_id < n
    · rw [if_pos hk]
      by_cases hrid : a.review_id = rid
      · have hcnt := ih (bump seen a.review_id)
        rw [hrid] at hcnt hk
        have hbump : bump seen rid rid = seen rid + 1 := by
          unfold bump
          rw [if_pos rfl]
        rw [hbump] at hcnt
        simp [List.countP_cons, hrid]
        omega
      · have hcnt := ih (bump seen a.review_id)
        have hbump : bump seen a.review_id rid = seen rid := by
          unfold bump
          rw [if_neg (fun h => hrid h.symm)]
        rw [hbump] at hcnt
        have hfalse : (a.review_id == rid) = false := beq_eq_false_iff_ne.mpr hrid
        simp [List.countP_cons, hfalse]
        omega
    · rw [if_neg hk]
      exact ih seen

/-- Every dropped row scores no higher than any kept row of the same
review id, provided the input is sorted by descending score. -/
theorem groupby_head_aux_kept_ge (n : Nat) :
    ∀ (l : List RRow) (seen : String → Nat), sorted_desc l →
      ∀ r ∈ groupby_head_aux n l seen, ∀ q ∈ l, q.review_id = r.review_id →
        q ∉ groupby_head_aux n l seen → q.score ≤ r.score := by
  intro l
  induction l with
  | nil =>
    intro seen _ r hr
    simp [groupby_head_aux] at hr
  | cons a t ih =>
    intro seen hs r hr q hq hrid hqn
    have hs' := List.pairwise_cons.mp hs
    unfold groupby_head_aux at hr hqn
    by_cases hk : seen a.review_id < n
    · rw [if_pos hk] at hr hqn
      have hqa : q ≠ a := fun h => hqn (h ▸ List.mem_cons_self a _)
      have hqt : q ∈ t := (List.mem_cons.mp hq).resolve_left hqa
      rcases List.mem_cons.mp hr with h | h
      · exact h ▸ hs'.1 q hqt
      · exact ih _ hs'.2 r h q hqt hrid
          (fun hmem => hqn (List.mem_cons_of_mem a hmem))
    · rw [if_neg hk] at hr hqn
      rcases List.mem_cons.mp hq with h | h
      · exfalso
        have hna : r.review_id ≠ a.review_id :=
          groupby_head_aux_quota n a.review_id t seen (le_of_not_lt hk) r hr
        exact hna (hrid ▸ congrArg RRow.review_id h)
      · exact ih seen hs'.2 r hr q h hrid hqn

/-- C7: in every result set of convert_similarity_arrays_to_df, no
review_id occurs more than MAX_CHUNKS_PER_REVIEW times, and every kept row
scores at least as high as every dropped row of the same review_id. -/
theorem max_chunks_per_review_enforced (rows out : List RRow)
    (h : convert_similarity_arrays_to_df rows out) :
    (∀ rid : String, out.countP (fun r => r.review_id == rid) ≤ MAX_CHUNKS_PER_REVIEW) ∧
    (∀ r ∈ out, ∀ q ∈ rows, q.review_id = r.review_id → q ∉ out → q.score ≤ r.score) := by
  rcases h with ⟨s, ⟨hperm, hsort⟩, hout⟩
  subst hout
  unfold groupby_head
  constructor
  · intro rid
    have := groupby_head_aux_countP MAX_CHUNKS_PER_REVIEW rid s (fun _ => 0)
    simpa using this
  · intro r hr q hq hrid hqn
    have hq' : q ∈ s := hperm.mem_iff.mpr hq
    exact groupby_head_aux_kept_ge MAX_CHUNKS_PER_REVIEW s (fun _ => 0) hsort r hr q hq' hrid hqn

/-- Witness for C7 on a three row input where review r1 has two chunks. -/
theorem max_chunks_per_review_enforced_witness :
    (groupby_head MAX_CHUNKS_PER_REVIEW
        [⟨5, 0, "r1", "c1"⟩, ⟨4, 2, "r2", "c3"⟩, ⟨3, 1, "r1", "c2"⟩]).countP
      (fun r => r.review_id == "r1") ≤ MAX_CHUNKS_PER_REVIEW :=
  (max_chunks_per_review_enforced
      [⟨5, 0, "r1", "c1"⟩, ⟨3, 1, "r1", "c2"⟩, ⟨4, 2, "r2", "c3"⟩]
      (groupby_head MAX_CHUNKS_PER_REVIEW
        [⟨5, 0, "r1", "c1"⟩, ⟨4, 2, "r2", "c3"⟩, ⟨3, 1, "r1", "c2"⟩])
      ⟨[⟨5, 0, "r1", "c1"⟩, ⟨4, 2, "r2", "c3"⟩, ⟨3, 1, "r1", "c2"⟩],
        ⟨by decide, by decide⟩, rfl⟩).1 "r1"

/-! ## IndexBuilder, from src/src/embeddings.py

create_faiss_for_yelp_reviews embeds all chunk texts once, in dataframe
order, then for each business id group takes the group row positions idx
(chunks_df.groupby(business_id).groups, positions in original order),
slices embeddings[idx_list] into the FAISS index for that entity and
persists chunks_df.loc[idx_list] as the metadata parquet.  The embedding
provider is an abstract function from chunk text to vectors (type V). -/

/-- One row of the chunked reviews dataframe, with the fields this claim
needs. -/
structure ChunkRow where
  business_id : String
  chunk_id : String
  chunk : String
deriving DecidableEq, Inhabited, Repr

/-- The dataframe row positions of one business id group, in original
order, as produced by chunks_df.groupby(col_restaurant_id).groups. -/
def groups_indices (bid : String) (chunks : List ChunkRow) : List Nat :=
  (List.range chunks.length).filter (fun i => (chunks.getD i default).business_id == bid)

/-- Embedding of CreateReviewEmbeddings.embed_texts: one vector per chunk
row, in dataframe order. -/
def embed_texts {V : Type} (f : String → V) (chunks : List ChunkRow) : List V :=
  chunks.map (fun c => f c.chunk)

/-- The vectors added to the FAISS index of one entity:
embeddings[idx_list] for that entity's group positions. -/
def shard_embeddings {V : Type} [Inhabited V] (f : String → V) (chunks : List ChunkRow)
    (bid : String) : List V :=
  (groups_indices bid chunks).map (fun i => (embed_texts f chunks).getD i default)

/-- The metadata rows persisted for one entity: chunks_df.loc[idx_list]
for that entity's group positions. -/
def shard_metadata (chunks : List ChunkRow) (bid : String) : List ChunkRow :=
  (groups_indices bid chunks).map (fun i => chunks.getD i default)

theorem getD_map_of_lt {α β : Type} (f : α → β) (l : List α) (i : Nat) (d : β) (da : α)
    (h : i < l.length) : (l.map f).getD i d = f (l.getD i da) := by
  rw [List.getD_eq_getElem?_getD, List.getD_eq_getElem?_getD, List.getElem?_map,
    List.getElem?_eq_getElem h]
  simp

theorem groups_indices_lt (bid : String) (chunks : List ChunkRow) (j : Nat)
    (hj : j ∈ groups_indices bid chunks) : j < chunks.length := by
  unfold groups_indices at hj
  exact List.mem_range.mp (List.mem_filter.mp hj).1

/-- C3: for every entity shard, the vector slice added to that entity's
index and the persisted metadata table have the same number of rows, and
the vector at position i is exactly the embedding of the chunk text of
metadata row i. -/
theorem index_metadata_aligned {V : Type} [Inhabited V] (f : String → V)
    (chunks : List ChunkRow) (bid : String) :
    (shard_embeddings f chunks bid).length = (shard_metadata chunks bid).length ∧
    ∀ i, i < (shard_metadata chunks bid).length →
      (shard_embeddings f chunks bid).getD i default =
        f (((shard_metadata chunks bid).getD i default).chunk) := by
  constructor
  · simp [shard_embeddings, shard_metadata]
  · intro i hi
    have hg : i < (groups_indices bid chunks).length := by
      simpa [shard_metadata] using hi
    have hjmem : (groups_indices bid chunks).getD i 0 ∈ groups_indices bid chunks := by
      rw [List.getD_eq_getElem?_getD, List.getElem?_eq_getElem hg]
      exact List.getElem_mem hg
    have hjlt : (groups_indices bid chunks).getD i 0 < chunks.length :=
      groups_indices_lt bid chunks _ hjmem
    unfold shard_embeddings shard_metadata
    rw [getD_map_of_lt _ _ i default 0 hg, getD_map_of_lt _ _ i default 0 hg]
    unfold embed_texts
    rw [getD_map_of_lt _ _ _ default default hjlt]

/-- Witness for C3 on a three row corpus with two entities, embedding a
chunk text to its length. -/
theorem index_metadata_aligned_witness :
    (shard_embeddings String.length [⟨"A", "c1", "x"⟩, ⟨"B", "c2", "yy"⟩, ⟨"A", "c3", "zzz"⟩]
        "A").getD 1 default =
      String.length
        (((shard_metadata [⟨"A", "c1", "x"⟩, ⟨"B", "c2", "yy"⟩, ⟨"A", "c3", "zzz"⟩]
            "A").getD 1 default).chunk) :=
  (index_metadata_aligned String.length
      [⟨"A", "c1", "x"⟩, ⟨"B", "c2", "yy"⟩, ⟨"A", "c3", "zzz"⟩] "A").2 1 (by decide)

/-! ## Build report, from src/src/embeddings.py lines 159-165

After the shard loop, the function counts the files matching the globs
star.faiss and star.parquet in the index directory, prints both counts,
and returns True.  Directory entries are modelled structurally by their
extension. -/

/-- A file in the index directory, tagged by its extension. -/
inductive IndexDirFile where
  | faissFile (bid : String)
  | parquetFile (name : String)
deriving DecidableEq, Repr

def is_faiss_file : IndexDirFile → Bool
  | IndexDirFile.faissFile _ => true
  | IndexDirFile.parquetFile _ => false

def is_parquet_file : IndexDirFile → Bool
  | IndexDirFile.faissFile _ => false
  | IndexDirFile.parquetFile _ => true

/-- The files written by the shard loop: per business id, one faiss index
file and one metadata parquet file. -/
def shard_files_written : List String → List IndexDirFile
  | [] => []
  | b :: rest =>
    IndexDirFile.faissFile b :: IndexDirFile.parquetFile (b ++ "_meta") ::
      shard_files_written rest

/-- Embedding of the report tail of create_faiss_for_yelp_reviews: the
index directory after the shard loop holds its initial files plus the
written shard files; the function reports the two glob counts and returns
True.  No comparison between the counts occurs anywhere. -/
def create_faiss_build_report (initialFiles : List IndexDirFile) (bids : List String) :
    Nat × Nat × Bool :=
  ((initialFiles ++ shard_files_written bids).filter is_faiss_file |>.length,
   (initialFiles ++ shard_files_written bids).filter is_parquet_file |>.length,
   true)

/-- C8 counterexample: with one stale parquet file already in the index
directory and one entity built, the reported counts are 1 faiss file and 2
parquet files, a mismatch, and the build still returns success. -/
theorem build_report_success_despite_mismatch :
    create_faiss_build_report [IndexDirFile.parquetFile "stale_meta"] ["A"] = (1, 2, true) := by
  rfl

theorem shard_files_faiss_count (bids : List String) :
    ((shard_files_written bids).filter is_faiss_file).length = bids.length := by
  induction bids with
  | nil => rfl
  | cons b rest ih => simp [shard_files_written, is_faiss_file, ih]

theorem shard_files_parquet_count (bids : List String) :
    ((shard_files_written bids).filter is_parquet_file).length = bids.length := by
  induction bids with
  | nil => rfl
  | cons b rest ih => simp [shard_files_written, is_parquet_file, ih]

/-- C8 amended: the build reports the two directory counts but never
compares them; it returns success unconditionally.  On a directory that
starts empty the two counts are in fact always equal (one faiss and one
parquet per entity), so a mismatch can only come from pre-existing files,
and even then success is reported. -/
theorem build_report_never_fails (initialFiles : List IndexDirFile) (bids : List String) :
    (create_faiss_build_report initialFiles bids).2.2 = true ∧
    (create_faiss_build_report [] bids).1 = bids.length ∧
    (create_faiss_build_report [] bids).2.1 = bids.length := by
  refine ⟨rfl, ?_, ?_⟩
  · simpa [create_faiss_build_report] using shard_files_faiss_count bids
  · simpa [create_faiss_build_report] using shard_files_parquet_count bids

/-! ## Pipeline runner, from src/run_pipeline.py

run_pipeline executes the five stages in order.  Its very first stage
calls io.generate_final_restaurant_list_for_rag(random_state = random_state)
(run_pipeline.py line 20), but data_io.py line 120 declares that method
with no parameter besides self and no keyword catch-all, so Python raises
TypeError for the unexpected keyword argument before any data work
happens.  At the retrieval stage the code would likewise evaluate
RetrieveRelevantText() with zero arguments against a constructor
(retrieval.py line 10) that requires the two positional parameters
processed_data_path and index_path, but execution never gets there.  The
cleaning and embedding stages perform external I/O and stay abstract
boolean outcomes; they are irrelevant because the run never passes the
first stage. -/

inductive PipelineStage where
  | dataImport
  | cleaning
  | embedding
  | retrieval
  | summarization
deriving DecidableEq, Repr

/-- Parameter names accepted by
ImportYelpReviewText.generate_final_restaurant_list_for_rag besides self
(data_io.py line 120): none, and there is no keyword catch-all. -/
def generate_final_restaurant_list_accepted_params : List String := []

/-- Keyword arguments supplied by the call at run_pipeline.py line 20:
generate_final_restaurant_list_for_rag(random_state = random_state). -/
def run_pipeline_import_call_keywords : List String := ["random_state"]

/-- Python binding of keyword arguments against a parameter list with no
keyword catch-all: any unexpected keyword raises TypeError. -/
def python_bind_keywords (keywords accepted : List String) : Except String Unit :=
  if keywords.all (fun k => accepted.contains k) then Except.ok () else Except.error "TypeError"

/-- Required positional parameters of RetrieveRelevantText.__init__
besides self: processed_data_path and index_path. -/
def RetrieveRelevantText_required_positional : Nat := 2

/-- Positional arguments supplied by run_pipeline.py line 37:
RetrieveRelevantText(). -/
def run_pipeline_retrieval_call_args : Nat := 0

/-- Python binding of positional arguments to a parameter list with no
defaults and no varargs: any count mismatch raises TypeError. -/
def python_bind_positional (provided required : Nat) : Except String Unit :=
  if provided = required then Except.ok () else Except.error "TypeError"

/-- Embedding of YelpRAGPipelineRunner.run_pipeline: the stages started in
order, paired with the outcome of the run; a stage failure stops the
sequence.  The data-import stage binds the keyword call of line 20, the
cleaning and embedding stages are abstract external outcomes, and the
retrieval stage binds the zero-argument construction of
RetrieveRelevantText. -/
def run_pipeline (cleaningOk embeddingOk : Bool) :
    List PipelineStage × Except String Unit :=
  match python_bind_keywords run_pipeline_import_call_keywords
      generate_final_restaurant_list_accepted_params with
  | Except.error e => ([PipelineStage.dataImport], Except.error e)
  | Except.ok _ =>
    if cleaningOk = false then
      ([PipelineStage.dataImport, PipelineStage.cleaning], Except.error "cleaning stage failed")
    else if embeddingOk = false then
      ([PipelineStage.dataImport, PipelineStage.cleaning, PipelineStage.embedding],
        Except.error "embedding stage failed")
    else
      match python_bind_positional run_pipeline_retrieval_call_args
          RetrieveRelevantText_required_positional with
      | Except.error e =>
        ([PipelineStage.dataImport, PipelineStage.cleaning, PipelineStage.embedding,
          PipelineStage.retrieval], Except.error e)
      | Except.ok _ =>
        ([PipelineStage.dataImport, PipelineStage.cleaning, PipelineStage.embedding,
          PipelineStage.retrieval, PipelineStage.summarization], Except.ok ())

/-- C10 counterexample: the TypeError does not wait for the retrieval
stage.  Even with both abstract stages set to succeed, the run stops in
the data-import stage, where the unexpected random_state keyword raises
TypeError, so the retrieval stage is never reached and no TypeError is
raised there. -/
theorem run_pipeline_never_reaches_retrieval :
    (run_pipeline true true).1 = [PipelineStage.dataImport] ∧
    (run_pipeline true true).2 = Except.error "TypeError" ∧
    PipelineStage.retrieval ∉ (run_pipeline true true).1 := by
  refine ⟨rfl, rfl, ?_⟩
  decide

/-- C10 amended: every call of run_pipeline raises TypeError already in
the data-import stage, because line 20 passes the keyword random_state to
generate_final_restaurant_list_for_rag, which accepts no parameters;
consequently no run ever starts the cleaning, embedding, retrieval or
summarization stages.  The zero-argument RetrieveRelevantText()
construction of the retrieval stage would also raise TypeError, but it is
unreachable dead code. -/
theorem run_pipeline_type_error_at_import (cleaningOk embeddingOk : Bool) :
    (run_pipeline cleaningOk embeddingOk).2 = Except.error "TypeError" ∧
    (run_pipeline cleaningOk embeddingOk).1 = [PipelineStage.dataImport] ∧
    PipelineStage.summarization ∉ (run_pipeline cleaningOk embeddingOk).1 ∧
    python_bind_positional run_pipeline_retrieval_call_args
      RetrieveRelevantText_required_positional = Except.error "TypeError" := by
  refine ⟨rfl, rfl, ?_, rfl⟩
  show PipelineStage.summarization ∉ ([PipelineStage.dataImport] : List PipelineStage)
  decide
